import Mathlib

/-!
Shallow embedding of `src/labeledverticalslider.py` (class `LabeledVerticalSlider`)
from the PiPyCamera repository.

Numeric values (`int`/`float` in the source, always produced by exact integer or
tenths arithmetic in `src/app.py`) are modelled as `ℚ`.  The float `math.inf`
initialiser of `closest_diff` is modelled as `⊤ : WithTop ℚ`.  Python exceptions
are modelled explicitly: an operation returns the mutated state, the list of
values emitted on the `value_changed` signal, and an optional raised exception
(Python mutates state up to the point where an exception is raised).

Qt behaviour that the widget relies on, modelled from the Qt contract:
- `QSlider.setValue(v)` bounds `v` into `[minimum, maximum]` and, when the
  bounded value differs from the current one, synchronously emits
  `valueChanged`, which the widget connects to `_value_changed`.
- `QAbstractSlider.setRange(lo, hi)` sets `minimum := lo` and
  `maximum := max lo hi`.
-/

namespace LVSlider

/-- Python exceptions that the widget's code paths can raise. -/
inductive PyError where
  | indexError
  | valueError
  | attributeError
deriving DecidableEq, Repr

/-- State of the `QSlider` child widget: its configured range and position. -/
structure SliderState where
  sliderMin : ℤ
  sliderMax : ℤ
  sliderPos : ℤ
deriving DecidableEq, Repr

/-- Content of the `lbl_value` label: initially empty; `setText(f'{closest}')`
writes either the text `None` or the rendering of a numeric value. -/
inductive LabelText where
  | empty
  | noneText
  | valText (v : ℚ)
deriving DecidableEq, Repr

/-- The `LabeledVerticalSlider` instance state: the Python attributes
`values`, `default`, `_internal_value`, the slider child, and the value label. -/
structure Widget where
  values : List ℚ
  default : Option ℚ
  internal_value : Option ℚ
  slider : SliderState
  lbl_value : LabelText
deriving DecidableEq, Repr

/-- Result of running one widget operation: mutated state, values emitted on
the `value_changed` signal, and the exception raised, if any. -/
structure PyResult where
  widget : Widget
  emitted : List ℚ
  exc : Option PyError
deriving DecidableEq, Repr

/-- Python `xs[i]` on a list: negative indices count from the back;
out-of-range indices raise `IndexError`. -/
def pyGetItem (xs : List ℚ) (i : ℤ) : Except PyError ℚ :=
  let j : ℤ := if i < 0 then i + xs.length else i
  if h : 0 ≤ j ∧ j < xs.length then
    .ok (xs.get ⟨j.toNat, by omega⟩)
  else
    .error .indexError

/-- Python `xs.index(x)`: position of the first occurrence, `ValueError` if
absent. -/
def listIndex : List ℚ → ℚ → Except PyError ℕ
  | [], _ => .error .valueError
  | v :: rest, x =>
    if v = x then .ok 0
    else (listIndex rest x).map (· + 1)

/-- Qt's bounding of a requested slider value into `[minimum, maximum]`. -/
def qtBound (mn mx v : ℤ) : ℤ := max mn (min mx v)

/-- The loop of `getClosestValue`: `closest` starts as `None`, `closest_diff`
starts as `math.inf` (`⊤`); for each `v`, `diff = abs(next_val - v)`; if
`diff == closest_diff` return `v` at once; if `diff < closest_diff` update the
pair; finally return `closest`. -/
def getClosestValueAux (next_val : ℚ) :
    List ℚ → Option ℚ → WithTop ℚ → Option ℚ
  | [], closest, _ => closest
  | v :: rest, closest, closest_diff =>
    let diff : WithTop ℚ := ((|next_val - v| : ℚ) : WithTop ℚ)
    if diff = closest_diff then some v
    else if diff < closest_diff then
      getClosestValueAux next_val rest (some v) diff
    else
      getClosestValueAux next_val rest closest closest_diff

/-- `getClosestValue(self, next_val)` of the source. -/
def getClosestValue (values : List ℚ) (next_val : ℚ) : Option ℚ :=
  getClosestValueAux next_val values none ⊤

/-- The closest-match algorithm as the specification words it: scan
front-to-back carrying the `(closest, closest_diff)` pair (absent before the
first element), update it whenever a strictly smaller difference is found, and
return early the value being visited whenever its difference equals the best
difference seen so far; an empty domain yields nothing. -/
def specClosestAux (req : ℚ) : List ℚ → Option (ℚ × ℚ) → Option ℚ
  | [], best => best.map Prod.fst
  | v :: rest, best =>
    let d := |req - v|
    match best with
    | none => specClosestAux req rest (some (v, d))
    | some (c, cd) =>
      if d = cd then some v
      else if d < cd then specClosestAux req rest (some (v, d))
      else specClosestAux req rest (some (c, cd))

/-- Spec-worded closest match over a whole domain. -/
def specClosest (values : List ℚ) (req : ℚ) : Option ℚ :=
  specClosestAux req values none

/-- `_value_changed(self, new_value)`: look up `self.values[new_value]`; on
`IndexError` the except-branch prints one diagnostic and then evaluates
`self.field` — an attribute that is never assigned anywhere in the class — so
`AttributeError` is raised before the `return` is reached; on success it emits
`value_changed` with the value and rewrites the label text. -/
def value_changed (w : Widget) (new_value : ℤ) : PyResult :=
  match pyGetItem w.values new_value with
  | .error _ => { widget := w, emitted := [], exc := some .attributeError }
  | .ok value =>
    { widget := { w with lbl_value := .valText value }
      emitted := [value]
      exc := none }

/-- `self.slider.setValue(v)`: Qt bounds `v` into the slider's range; if the
bounded position differs from the current one it is stored and `valueChanged`
fires, running the connected `_value_changed` synchronously. -/
def sliderSetValue (w : Widget) (v : ℤ) : PyResult :=
  let b := qtBound w.slider.sliderMin w.slider.sliderMax v
  if b = w.slider.sliderPos then
    { widget := w, emitted := [], exc := none }
  else
    value_changed { w with slider := { w.slider with sliderPos := b } } b

/-- `setValue(self, new_value)`: store `_internal_value := new_value`; compute
the closest legal value; when it is not `None`, move the slider to
`self.values.index(closest)`; finally write `f'{closest}'` into the label. -/
def setValue (w : Widget) (new_value : ℚ) : PyResult :=
  let w1 : Widget := { w with internal_value := some new_value }
  match getClosestValue w1.values new_value with
  | none => { widget := { w1 with lbl_value := .noneText }, emitted := [], exc := none }
  | some c =>
    match listIndex w1.values c with
    | .error e => { widget := w1, emitted := [], exc := some e }
    | .ok i =>
      let r := sliderSetValue w1 (i : ℤ)
      match r.exc with
      | some _ => r
      | none =>
        { widget := { r.widget with lbl_value := .valText c }
          emitted := r.emitted
          exc := none }

/-- `value(self)`: return `_internal_value` when it is not `None`, otherwise
`self.values[self.slider.value()]`. -/
def value (w : Widget) : Except PyError ℚ :=
  match w.internal_value with
  | some v => .ok v
  | none => pyGetItem w.values w.slider.sliderPos

/-- `setNewValues(self, new_values)`: assigns `self.values = new_values`, then
calls `self.slider.getValue()` — `QSlider` has no attribute `getValue` (its
accessor is `value()`), so every call raises `AttributeError` right after the
domain has been replaced, and the subsequent `self.setValue(...)` never runs. -/
def setNewValues (w : Widget) (new_values : List ℚ) : PyResult :=
  { widget := { w with values := new_values }, emitted := [], exc := some .attributeError }

/-- `__init__(display_text, values, default, data_type)`: stores the
attributes, sets `_internal_value := default`, builds the UI
(`slider.setRange(0, len(values)-1)` before connecting `valueChanged`, label
initially empty, slider position initially 0), then `_reset_value()`: when
`default` is not `None`, `slider.setValue(values.index(default))` — which
raises `ValueError` if `default` is not in `values`.  There is no emptiness
check on `values` anywhere. -/
def initWidget (values : List ℚ) (default : Option ℚ) : PyResult :=
  let w0 : Widget :=
    { values := values
      default := default
      internal_value := default
      slider :=
        { sliderMin := 0
          sliderMax := max 0 ((values.length : ℤ) - 1)
          sliderPos := 0 }
      lbl_value := .empty }
  match default with
  | none => { widget := w0, emitted := [], exc := none }
  | some d =>
    match listIndex values d with
    | .error e => { widget := w0, emitted := [], exc := some e }
    | .ok i => sliderSetValue w0 (i : ℤ)

/-! ### Helper lemmas -/

/-- With the pair already populated, the source loop and the spec-worded loop
agree: a finite `closest_diff` behaves identically to its `WithTop` image. -/
theorem getClosestValueAux_eq_spec (nv : ℚ) :
    ∀ (l : List ℚ) (c d : ℚ),
      getClosestValueAux nv l (some c) ((d : ℚ) : WithTop ℚ) =
        specClosestAux nv l (some (c, d)) := by
  intro l
  induction l with
  | nil => intro c d; simp [getClosestValueAux, specClosestAux]
  | cons v rest ih =>
    intro c d
    by_cases h1 : |nv - v| = d
    · simp [getClosestValueAux, specClosestAux, h1]
    · by_cases h2 : |nv - v| < d
      · simp [getClosestValueAux, specClosestAux, h1, h2, ih]
      · simp [getClosestValueAux, specClosestAux, h1, h2, ih]

/-- The source's closest-match loop computes exactly the spec-worded scan. -/
theorem getClosestValue_eq_spec (values : List ℚ) (nv : ℚ) :
    getClosestValue values nv = specClosest values nv := by
  cases values with
  | nil => rfl
  | cons v rest =>
    show getClosestValueAux nv (v :: rest) none ⊤ = specClosestAux nv (v :: rest) none
    have h1 : ((|nv - v| : ℚ) : WithTop ℚ) ≠ (⊤ : WithTop ℚ) := WithTop.coe_ne_top
    have h2 : ((|nv - v| : ℚ) : WithTop ℚ) < (⊤ : WithTop ℚ) := WithTop.coe_lt_top _
    simp only [getClosestValueAux, specClosestAux, h1, h2, if_false, if_true,
      getClosestValueAux_eq_spec]

/-- The scan only ever answers with the carried candidate or a scanned value. -/
theorem specClosestAux_mem (nv : ℚ) :
    ∀ (l : List ℚ) (c d : ℚ),
      ∃ r, specClosestAux nv l (some (c, d)) = some r ∧ (r = c ∨ r ∈ l) := by
  intro l
  induction l with
  | nil => intro c d; exact ⟨c, by simp [specClosestAux], Or.inl rfl⟩
  | cons v rest ih =>
    intro c d
    by_cases h1 : |nv - v| = d
    · exact ⟨v, by simp [specClosestAux, h1], Or.inr (List.mem_cons_self v rest)⟩
    · by_cases h2 : |nv - v| < d
      · obtain ⟨r, hr, hmem⟩ := ih v |nv - v|
        refine ⟨r, by simp [specClosestAux, h1, h2, hr], ?_⟩
        rcases hmem with h | h
        · exact Or.inr (h ▸ List.mem_cons_self v rest)
        · exact Or.inr (List.mem_cons_of_mem v h)
      · obtain ⟨r, hr, hmem⟩ := ih c d
        refine ⟨r, by simp [specClosestAux, h1, h2, hr], ?_⟩
        rcases hmem with h | h
        · exact Or.inl h
        · exact Or.inr (List.mem_cons_of_mem v h)

/-- On a non-empty domain the closest match exists and lies in the domain. -/
theorem getClosestValue_mem {values : List ℚ} (hne : values ≠ []) (nv : ℚ) :
    ∃ r, getClosestValue values nv = some r ∧ r ∈ values := by
  cases values with
  | nil => exact absurd rfl hne
  | cons v rest =>
    rw [getClosestValue_eq_spec]
    obtain ⟨r, hr, hmem⟩ := specClosestAux_mem nv rest v |nv - v|
    refine ⟨r, ?_, ?_⟩
    · simpa [specClosest, specClosestAux] using hr
    · rcases hmem with h | h
      · exact h ▸ List.mem_cons_self v rest
      · exact List.mem_cons_of_mem v h

/-- `list.index` succeeds, with an in-range position, on any member. -/
theorem listIndex_of_mem {values : List ℚ} {c : ℚ} (h : c ∈ values) :
    ∃ i, listIndex values c = .ok i ∧ i < values.length := by
  induction values with
  | nil => simp at h
  | cons v rest ih =>
    by_cases hv : v = c
    · exact ⟨0, by simp [listIndex, hv], by simp⟩
    · have hc : c ∈ rest := by
        rcases List.mem_cons.mp h with h' | h'
        · exact absurd h'.symm hv
        · exact h'
      obtain ⟨i, hi, hlt⟩ := ih hc
      exact ⟨i + 1, by simp [listIndex, hv, hi, Except.map], by simpa using Nat.succ_lt_succ hlt⟩

/-- A non-negative in-range Python index reads the corresponding element. -/
theorem pyGetItem_nonneg {xs : List ℚ} {i : ℤ} (h0 : 0 ≤ i) (hlt : i < xs.length) :
    pyGetItem xs i = .ok (xs.getD i.toNat 0) := by
  have hni : ¬ i < 0 := not_lt.mpr h0
  simp only [pyGetItem, hni, if_false]
  rw [dif_pos ⟨h0, hlt⟩, List.getD_eq_getElem _ _ (by omega)]
  simp [List.get_eq_getElem]

/-- A negative index no lower than `-len` reads `xs[i + len]`. -/
theorem pyGetItem_negIdx {xs : List ℚ} {i : ℤ} (h1 : -(xs.length : ℤ) ≤ i) (h2 : i < 0) :
    pyGetItem xs i = .ok (xs.getD (i + xs.length).toNat 0) := by
  simp only [pyGetItem, h2, if_true]
  rw [dif_pos ⟨by omega, by omega⟩, List.getD_eq_getElem _ _ (by omega)]
  simp [List.get_eq_getElem]

/-- Full characterization of `setValue` on a well-formed widget with a
non-empty domain: no exception, `_internal_value` holds the raw request, the
slider moved to the bounded position of the snapped value, and the label shows
the snapped value. -/
theorem setValue_widget (w : Widget) (v : ℚ)
    (hmn : w.slider.sliderMin = 0) (hne : w.values ≠ []) :
    ∃ c i, getClosestValue w.values v = some c ∧ c ∈ w.values ∧
      listIndex w.values c = .ok i ∧ i < w.values.length ∧
      (setValue w v).exc = none ∧
      (setValue w v).widget =
        { values := w.values
          default := w.default
          internal_value := some v
          slider :=
            { sliderMin := w.slider.sliderMin
              sliderMax := w.slider.sliderMax
              sliderPos := qtBound w.slider.sliderMin w.slider.sliderMax (i : ℤ) }
          lbl_value := .valText c } := by
  obtain ⟨c, hc, hcmem⟩ := getClosestValue_mem hne v
  obtain ⟨i, hi, hilt⟩ := listIndex_of_mem hcmem
  refine ⟨c, i, hc, hcmem, hi, hilt, ?_⟩
  obtain ⟨vals, df, iv, ⟨mn, mx, pos⟩, lbl⟩ := w
  simp only at hc hi hmn hne hilt hcmem ⊢
  subst hmn
  have hble : qtBound 0 mx (i : ℤ) ≤ (i : ℤ) :=
    max_le (Int.natCast_nonneg i) (min_le_right _ _)
  have hb0 : (0 : ℤ) ≤ qtBound 0 mx (i : ℤ) := le_max_left _ _
  by_cases hb : qtBound 0 mx (i : ℤ) = pos
  · simp [setValue, sliderSetValue, hc, hi, hb]
  · have hok := @pyGetItem_nonneg vals (qtBound 0 mx (i : ℤ)) hb0
      (lt_of_le_of_lt hble (by exact_mod_cast hilt))
    simp [setValue, sliderSetValue, value_changed, hc, hi, hb, hok]

/-- When every scanned value is strictly farther than the carried difference,
the scan keeps the carried candidate. -/
theorem specClosestAux_far (nv : ℚ) :
    ∀ (l : List ℚ) (c d : ℚ), (∀ x ∈ l, d < |nv - x|) →
      specClosestAux nv l (some (c, d)) = some c := by
  intro l
  induction l with
  | nil => intro c d _; simp [specClosestAux]
  | cons v rest ih =>
    intro c d h
    have hv : d < |nv - v| := h v (List.mem_cons_self v rest)
    have hnl : ¬ |nv - v| < d := not_lt.mpr (le_of_lt hv)
    simp [specClosestAux, ne_of_gt hv, hnl,
      ih c d (fun x hx => h x (List.mem_cons_of_mem v hx))]

/-- Over a strictly ascending tail all lying below the request, with strictly
shrinking differences, the scan walks to the last element. -/
theorem specClosestAux_desc (nv : ℚ) :
    ∀ (l : List ℚ) (c d : ℚ), List.Chain' (· < ·) l →
      (∀ x ∈ l, x < nv) → (∀ x ∈ l, nv - x < d) →
      specClosestAux nv l (some (c, d)) = some (l.getLast?.getD c) := by
  intro l
  induction l with
  | nil => intro c d _ _ _; simp [specClosestAux]
  | cons v rest ih =>
    intro c d hch hlt hd
    have hvnv : v < nv := hlt v (List.mem_cons_self v rest)
    have habs : |nv - v| = nv - v := abs_of_pos (by linarith)
    have hlt' : |nv - v| < d := by rw [habs]; exact hd v (List.mem_cons_self v rest)
    have hpair : ∀ x ∈ rest, v < x :=
      (List.pairwise_cons.mp (List.chain'_iff_pairwise.mp hch)).1
    have hrec := ih v |nv - v| hch.tail
      (fun x hx => hlt x (List.mem_cons_of_mem v hx))
      (fun x hx => by rw [habs]; have := hpair x hx; linarith)
    rw [specClosestAux]
    simp only [ne_of_lt hlt', if_false, hlt', if_true, hrec]
    cases rest with
    | nil => simp
    | cons r rs => simp [List.getLast?_eq_getLast_of_ne_nil (List.cons_ne_nil r rs)]

/-- On a strictly ascending domain, a request below the first element snaps to
the first element. -/
theorem getClosestValue_below (a : ℚ) (l : List ℚ) (v : ℚ)
    (hch : List.Chain' (· < ·) (a :: l)) (hv : v < a) :
    getClosestValue (a :: l) v = some a := by
  rw [getClosestValue_eq_spec]
  have hpair : ∀ x ∈ l, a < x :=
    (List.pairwise_cons.mp (List.chain'_iff_pairwise.mp hch)).1
  have habs : |v - a| = a - v := by
    rw [abs_of_neg (by linarith)]; ring
  have hfar : ∀ x ∈ l, |v - a| < |v - x| := by
    intro x hx
    have hax := hpair x hx
    rw [habs, abs_of_neg (by linarith)]
    linarith
  show specClosestAux v (a :: l) none = some a
  rw [specClosestAux]
  exact specClosestAux_far v l a |v - a| hfar

/-- On a strictly ascending domain, a request above every element snaps to the
last element. -/
theorem getClosestValue_above (a : ℚ) (l : List ℚ) (v : ℚ)
    (hch : List.Chain' (· < ·) (a :: l)) (hv : ∀ x ∈ a :: l, x < v) :
    getClosestValue (a :: l) v = (a :: l).getLast? := by
  rw [getClosestValue_eq_spec]
  have hpair : ∀ x ∈ l, a < x :=
    (List.pairwise_cons.mp (List.chain'_iff_pairwise.mp hch)).1
  have hav : a < v := hv a (List.mem_cons_self a l)
  have habs : |v - a| = v - a := abs_of_pos (by linarith)
  show specClosestAux v (a :: l) none = (a :: l).getLast?
  rw [specClosestAux]
  rw [specClosestAux_desc v l a |v - a| hch.tail
    (fun x hx => hv x (List.mem_cons_of_mem a hx))
    (fun x hx => by rw [habs]; have := hpair x hx; linarith)]
  cases l with
  | nil => simp
  | cons r rs => simp [List.getLast?_eq_getLast_of_ne_nil (List.cons_ne_nil r rs)]

/-! ### Claims -/

/-- C1 counterexample: for domain `[10, 20, 30]` and request `15` the code does
not return `10`. -/
theorem c1_tiebreak_counterexample :
    getClosestValue [10, 20, 30] 15 ≠ some 10 := by
  rw [getClosestValue_eq_spec]
  norm_num [specClosest, specClosestAux]

/-- C1 (amended): for domain `[10, 20, 30]` and request `15`, the
closest-match resolution returns `20`, not `10`: a value whose difference ties
the best difference seen so far is returned immediately, so of two equidistant
values the later-encountered one wins; `setValue 15` accordingly displays `20`
and moves the slider to index `1`. -/
theorem c1_tiebreak_amended :
    getClosestValue [10, 20, 30] 15 = some 20 ∧
    (setValue ((initWidget [10, 20, 30] none).widget) 15).widget.lbl_value = .valText 20 ∧
    (setValue ((initWidget [10, 20, 30] none).widget) 15).widget.slider.sliderPos = 1 := by
  refine ⟨?_, ?_, ?_⟩ <;>
    norm_num [setValue, initWidget, sliderSetValue, value_changed, pyGetItem,
      listIndex, qtBound, getClosestValue_eq_spec, specClosest, specClosestAux, Except.map]

/-- C2: `getClosestValue` computes exactly the algorithm the spec words —
front-to-back scan, update `(closest, closest_diff)` on a strictly smaller
difference, return the visited value as soon as its difference equals the best
seen so far — and returns nothing on an empty domain. -/
theorem c2_algorithm (values : List ℚ) (v : ℚ) :
    getClosestValue values v = specClosest values v ∧
    getClosestValue [] v = none :=
  ⟨getClosestValue_eq_spec values v, rfl⟩

/-- C3 counterexample: on domain `[10, 20, 30]`, after `setValue 15` the
observable `value()` is `15`, which is not an element of the domain. -/
theorem c3_membership_counterexample :
    value ((setValue ((initWidget [10, 20, 30] none).widget) 15).widget) = .ok 15 ∧
    (15 : ℚ) ∉ ([10, 20, 30] : List ℚ) := by
  constructor
  · norm_num [value, setValue, initWidget, sliderSetValue, value_changed, pyGetItem,
      listIndex, qtBound, getClosestValue_eq_spec, specClosest, specClosestAux, Except.map]
  · norm_num

/-- C3 (amended): for every well-formed widget with a non-empty domain,
`setValue v` raises nothing, keeps the slider index within
`[0, len values - 1]`, and displays an element of the domain; `value()`
however returns the raw requested `v` itself, which lies in the domain only
when `v` does. -/
theorem c3_membership_amended (w : Widget) (v : ℚ)
    (hmn : w.slider.sliderMin = 0) (hne : w.values ≠ []) :
    (setValue w v).exc = none ∧
    0 ≤ (setValue w v).widget.slider.sliderPos ∧
    (setValue w v).widget.slider.sliderPos < w.values.length ∧
    (∃ c ∈ w.values, (setValue w v).widget.lbl_value = .valText c) ∧
    value ((setValue w v).widget) = .ok v := by
  obtain ⟨c, i, hc, hcmem, hi, hilt, hexc, hwid⟩ := setValue_widget w v hmn hne
  refine ⟨hexc, ?_, ?_, ⟨c, hcmem, ?_⟩, ?_⟩
  · rw [hwid]
    simp only [hmn]
    exact le_max_left _ _
  · rw [hwid]
    simp only [hmn]
    exact lt_of_le_of_lt (max_le (Int.natCast_nonneg i) (min_le_right _ _))
      (by exact_mod_cast hilt)
  · rw [hwid]
  · rw [hwid]
    simp [value]

/-- C3 witness: the amended statement instantiated on the domain
`[10, 20, 30]` with request `15`. -/
theorem c3_membership_witness :
    (setValue ((initWidget [10, 20, 30] none).widget) 15).exc = none ∧
    0 ≤ (setValue ((initWidget [10, 20, 30] none).widget) 15).widget.slider.sliderPos ∧
    (setValue ((initWidget [10, 20, 30] none).widget) 15).widget.slider.sliderPos <
      ((initWidget [10, 20, 30] none).widget).values.length ∧
    (∃ c ∈ ((initWidget [10, 20, 30] none).widget).values,
      (setValue ((initWidget [10, 20, 30] none).widget) 15).widget.lbl_value = .valText c) ∧
    value ((setValue ((initWidget [10, 20, 30] none).widget) 15).widget) = .ok 15 :=
  c3_membership_amended ((initWidget [10, 20, 30] none).widget) 15 rfl (by simp [initWidget])

/-- C4 counterexample: constructing with an empty domain and no default raises
nothing at all — in particular no `InvalidDomainError`, which does not exist
anywhere in the source. -/
theorem c4_empty_domain_counterexample :
    (initWidget [] none).exc = none := rfl

/-- C4 (amended): construction with an empty value sequence does not raise an
`InvalidDomainError` (no such check or exception class exists): with no
default it completes without error, leaving the degenerate slider range
`[0, 0]`; with a default it raises `ValueError` from `values.index(default)`. -/
theorem c4_empty_domain_amended :
    (initWidget [] none).exc = none ∧
    (initWidget [] none).widget.slider.sliderMin = 0 ∧
    (initWidget [] none).widget.slider.sliderMax = 0 ∧
    (initWidget [] (some 5)).exc = some .valueError := by
  refine ⟨rfl, rfl, rfl, ?_⟩
  norm_num [initWidget, listIndex]

/-- C5: a slider-reported index beyond the domain (index 5 on a 3-element
domain) makes `_value_changed` emit nothing and touch no display, but the
except-branch diagnostic evaluates the never-assigned attribute `self.field`,
so an `AttributeError` surfaces instead of the claimed silent discard. -/
theorem c5_out_of_range_raises :
    value_changed ((initWidget [10, 20, 30] none).widget) 5 =
      { widget := (initWidget [10, 20, 30] none).widget
        emitted := []
        exc := some .attributeError } := by
  norm_num [value_changed, pyGetItem, initWidget]

/-- C6 counterexample: widget over `[10, 20, 30]` with default `10`; after a
user-driven slider change to index `2`, `value()` still returns the
externally-set `10`, not `values[2] = 30`. -/
theorem c6_value_counterexample :
    value ((sliderSetValue ((initWidget [10, 20, 30] (some 10)).widget) 2).widget) = .ok 10 ∧
    ((sliderSetValue ((initWidget [10, 20, 30] (some 10)).widget) 2).widget).slider.sliderPos = 2 ∧
    ((sliderSetValue ((initWidget [10, 20, 30] (some 10)).widget) 2).widget).values.getD 2 0 = 30 ∧
    (10 : ℚ) ≠ 30 := by
  refine ⟨?_, ?_, ?_, by norm_num⟩ <;>
    norm_num [value, initWidget, sliderSetValue, value_changed, pyGetItem,
      listIndex, qtBound, Except.map]

/-- C6 (amended): `value()` returns the externally-set value (constructor
default or last `setValue` argument) whenever one was ever set, even after
user-driven slider changes — the slider handler never clears
`_internal_value` — and returns `values[index]` only when no external value
was ever set. -/
theorem c6_value_amended (w : Widget) (i : ℤ) :
    (value_changed w i).widget.internal_value = w.internal_value ∧
    (∀ x, w.internal_value = some x → value ((value_changed w i).widget) = .ok x) ∧
    (w.internal_value = none → value w = pyGetItem w.values w.slider.sliderPos) := by
  have hint : (value_changed w i).widget.internal_value = w.internal_value := by
    unfold value_changed
    cases pyGetItem w.values i <;> rfl
  refine ⟨hint, ?_, ?_⟩
  · intro x hx
    unfold value
    rw [hint, hx]
  · intro hx
    unfold value
    rw [hx]

/-- C6 witness: the amended statement instantiated on a widget holding the
externally-set value `10`, after a slider change to index `2`. -/
theorem c6_value_witness :
    value ((value_changed
      { values := [10, 20, 30], default := some 10, internal_value := some 10,
        slider := { sliderMin := 0, sliderMax := 2, sliderPos := 2 },
        lbl_value := .empty } 2).widget) = .ok 10 :=
  (c6_value_amended
    { values := [10, 20, 30], default := some 10, internal_value := some 10,
      slider := { sliderMin := 0, sliderMax := 2, sliderPos := 2 },
      lbl_value := .empty } 2).2.1 10 rfl

/-- C7: on the spec scenario — domain `[0, 10, 20]` selected at `10`, then
`setNewValues [0, 7, 14, 21]` — the call replaces the stored domain but then
raises `AttributeError` (`QSlider` has no method `getValue`), so no
re-resolution happens: the slider index stays at `1` and the display still
shows `10` instead of the claimed snap to `7`. -/
theorem c7_replace_domain_bug :
    (setNewValues ((initWidget [0, 10, 20] (some 10)).widget) [0, 7, 14, 21]).exc =
      some .attributeError ∧
    (setNewValues ((initWidget [0, 10, 20] (some 10)).widget) [0, 7, 14, 21]).widget.values =
      [0, 7, 14, 21] ∧
    (setNewValues ((initWidget [0, 10, 20] (some 10)).widget)
      [0, 7, 14, 21]).widget.slider.sliderPos = 1 ∧
    (setNewValues ((initWidget [0, 10, 20] (some 10)).widget)
      [0, 7, 14, 21]).widget.lbl_value = .valText 10 ∧
    (setNewValues ((initWidget [0, 10, 20] (some 10)).widget) [0, 7, 14, 21]).emitted = [] := by
  refine ⟨rfl, rfl, ?_, ?_, rfl⟩ <;>
    norm_num [setNewValues, initWidget, sliderSetValue, value_changed, pyGetItem,
      listIndex, qtBound, Except.map]

/-- C8: on a strictly ascending non-empty domain a request below the first
element snaps to the first element and a request above every element snaps to
the last, with no rejection and no error; concretely, on `[0, 5, 10, 15, 20]`,
`setValue (-100)` selects index `0` displaying `0` and `setValue 1000` selects
index `4` displaying `20`, raising nothing. -/
theorem c8_endpoint_snap (a : ℚ) (l : List ℚ) (v : ℚ)
    (hch : List.Chain' (· < ·) (a :: l)) :
    (v < a → getClosestValue (a :: l) v = some a) ∧
    ((∀ x ∈ a :: l, x < v) → getClosestValue (a :: l) v = (a :: l).getLast?) ∧
    (setValue ((initWidget [0, 5, 10, 15, 20] none).widget) (-100)).exc = none ∧
    (setValue ((initWidget [0, 5, 10, 15, 20] none).widget) (-100)).widget.slider.sliderPos = 0 ∧
    (setValue ((initWidget [0, 5, 10, 15, 20] none).widget) (-100)).widget.lbl_value =
      .valText 0 ∧
    (setValue ((initWidget [0, 5, 10, 15, 20] none).widget) 1000).exc = none ∧
    (setValue ((initWidget [0, 5, 10, 15, 20] none).widget) 1000).widget.slider.sliderPos = 4 ∧
    (setValue ((initWidget [0, 5, 10, 15, 20] none).widget) 1000).widget.lbl_value =
      .valText 20 := by
  refine ⟨fun hv => getClosestValue_below a l v hch hv,
    fun hv => getClosestValue_above a l v hch hv, ?_, ?_, ?_, ?_, ?_, ?_⟩ <;>
    norm_num [setValue, initWidget, sliderSetValue, value_changed, pyGetItem,
      listIndex, qtBound, getClosestValue_eq_spec, specClosest, specClosestAux, Except.map]

/-- C8 witness: the theorem applied to the domain `[0, 5, 10, 15, 20]` with
requests `-100` and `1000`. -/
theorem c8_endpoint_snap_witness :
    getClosestValue [0, 5, 10, 15, 20] (-100) = some 0 ∧
    getClosestValue [0, 5, 10, 15, 20] 1000 = ([0, 5, 10, 15, 20] : List ℚ).getLast? := by
  constructor
  · exact (c8_endpoint_snap 0 [5, 10, 15, 20] (-100)
      (by norm_num [List.chain'_cons])).1 (by norm_num)
  · exact (c8_endpoint_snap 0 [5, 10, 15, 20] 1000
      (by norm_num [List.chain'_cons])).2.1 (by norm_num [List.forall_mem_cons])

/-- C9: `setValue v; setValue v` is idempotent on any widget whose slider
minimum is the constructed `0`: the second call reproduces exactly the widget
state — index, displayed value, and all — the first call left. -/
theorem c9_idempotent (w : Widget) (v : ℚ) (hmn : w.slider.sliderMin = 0) :
    (setValue ((setValue w v).widget) v).widget = (setValue w v).widget := by
  by_cases hne : w.values = []
  · obtain ⟨vals, df, iv, sl, lbl⟩ := w
    simp only at hne
    subst hne
    simp [setValue, getClosestValue, getClosestValueAux]
  · obtain ⟨c, i, hc, hcmem, hi, hilt, hexc, hwid⟩ := setValue_widget w v hmn hne
    have hmn' : ((setValue w v).widget).slider.sliderMin = 0 := by rw [hwid]; exact hmn
    have hvals : ((setValue w v).widget).values = w.values := by rw [hwid]
    obtain ⟨c2, i2, hc2, hcmem2, hi2, hilt2, hexc2, hwid2⟩ :=
      setValue_widget ((setValue w v).widget) v hmn' (hvals ▸ hne)
    rw [hvals] at hc2 hi2
    rw [hc] at hc2
    have hcc : c2 = c := (Option.some_inj.mp hc2).symm
    rw [hcc, hi] at hi2
    have hii : i2 = i := by
      injection hi2 with h
      exact h.symm
    rw [hwid2, hcc, hii, hwid]

/-- C9 witness: idempotence instantiated on the domain `[10, 20, 30]` with
request `15`. -/
theorem c9_idempotent_witness :
    (setValue ((setValue ((initWidget [10, 20, 30] none).widget) 15).widget) 15).widget =
      (setValue ((initWidget [10, 20, 30] none).widget) 15).widget :=
  c9_idempotent ((initWidget [10, 20, 30] none).widget) 15 rfl

/-- C10: a slider-reported negative index within `[-len, -1]` is not caught by
the out-of-range guard: `_value_changed` emits `values[len + rawIndex]`
(Python negative indexing) and updates the display, raising nothing. -/
theorem c10_negative_index (w : Widget) (i : ℤ)
    (h1 : -(w.values.length : ℤ) ≤ i) (h2 : i ≤ -1) :
    value_changed w i =
      { widget :=
          { w with lbl_value := .valText (w.values.getD (i + w.values.length).toNat 0) }
        emitted := [w.values.getD (i + w.values.length).toNat 0]
        exc := none } := by
  have hp := @pyGetItem_negIdx w.values i h1 (by omega)
  simp [value_changed, hp]

/-- C10 witness: on the domain `[10, 20, 30]`, the raw index `-1` emits the
last element `30`. -/
theorem c10_negative_index_witness :
    value_changed
      { values := [10, 20, 30], default := none, internal_value := none,
        slider := { sliderMin := 0, sliderMax := 2, sliderPos := 0 },
        lbl_value := .empty } (-1) =
      { widget :=
          { values := [10, 20, 30], default := none, internal_value := none,
            slider := { sliderMin := 0, sliderMax := 2, sliderPos := 0 },
            lbl_value := .valText 30 }
        emitted := [30]
        exc := none } := by
  have h := c10_negative_index
    { values := [10, 20, 30], default := none, internal_value := none,
      slider := { sliderMin := 0, sliderMax := 2, sliderPos := 0 },
      lbl_value := .empty } (-1) (by norm_num) (by norm_num)
  simpa using h

end LVSlider
